import Mathlib

/- Verification development for the PSB letter-processing backend.

   The embedding below follows the Python sources:
   - src/models/letter.py          (Letter record, LetterStatus / LetterStyle enums)
   - src/api/routes.py             (edit_letter_answer, approve_letter, send_letter)
   - src/api/admin_routes.py       (edit_letter_answer, approve_letter, send_letter)
   - src/domain/letters/letter_types.py (LetterType, to_letter_type,
                                    get_reply_deadline_days, get_letter_style)
   - src/services/letter_processor.py   (process_letter)
   - src/services/ml_classifier.py      (_classify_with_ml confidence handling)
   - src/generator/generator.py         (style-guidance lookup, user prompt)
   - src/data_processing/preprocessing.py (extract_entities, remove_personal_data,
                                    enhanced_preprocess_text)

   Text is modelled at the level of Unicode codepoints (List Nat); machine
   floats appearing only as the literals 0.8 / 0.7 are modelled as rationals. -/

/-! ## Letter data model (src/models/letter.py) -/

/-- Status enum of src/models/letter.py lines 24-28: the deployed model has
exactly three states; there is no REJECTED member. -/
inductive LetterStatus where
  | pending_approval
  | approved
  | sent
  deriving DecidableEq, Repr

/-- Style enum of src/models/letter.py lines 9-14. -/
inductive LetterStyle where
  | formal
  | informal
  | business
  | casual
  deriving DecidableEq, Repr

/-- Letter record (src/models/letter.py lines 31-54).  Dates are modelled as
integer timestamps; nullable columns as Option. -/
structure Letter where
  received_date : Int
  sender_name : Option String
  sender_email : Option String
  original_text : String
  letter_style : LetterStyle
  reply_deadline : Int
  status : LetterStatus
  generated_answer : String
  edited_answer : Option String
  sent_date : Option Int
  deriving DecidableEq, Repr

/-- Python truthiness test for an Optional[str]: None and the empty string are
falsy.  Used by `if not letter.sender_email` (routes.py line 230) and
`if approval_request.edited_answer` (routes.py line 191). -/
def pyStrFalsy (o : Option String) : Bool :=
  match o with
  | none => true
  | some s => s = ""

/-- Python expression `a or b` on an Optional[str] `a` and str `b`
(routes.py line 237, admin_routes.py line 251). -/
def pyOrStr (a : Option String) (b : String) : String :=
  match a with
  | some s => if s = "" then b else s
  | none => b

/-- Arguments of the EmailSender.send_email call issued by send_letter
(routes.py lines 241-246). -/
structure EmailCall where
  to_email : String
  to_name : Option String
  subject : String
  body : String
  deriving DecidableEq, Repr

/-- Result of the send endpoint: the letter record as persisted after the
request, the delivery call made (if any), and whether the request succeeded
(httpOk = false models the HTTPException 400 paths, which leave the record
untouched). -/
structure SendOutcome where
  stored : Letter
  delivery : Option EmailCall
  httpOk : Bool
  deriving DecidableEq, Repr

/-- The send endpoint, identical in routes.py lines 219-255 and
admin_routes.py lines 233-267: reject unless status == APPROVED; reject when
sender_email is falsy; otherwise deliver `edited_answer or generated_answer`
and persist status = SENT with sent_date = now. -/
def send_letter (l : Letter) (now : Int) : SendOutcome :=
  if l.status ≠ LetterStatus.approved then
    { stored := l, delivery := none, httpOk := false }
  else if pyStrFalsy l.sender_email then
    { stored := l, delivery := none, httpOk := false }
  else
    let answer_to_send := pyOrStr l.edited_answer l.generated_answer
    let call : EmailCall :=
      { to_email := (l.sender_email).getD "",
        to_name := l.sender_name,
        subject := "Ответ на ваше обращение",
        body := answer_to_send }
    { stored := { l with status := LetterStatus.sent, sent_date := some now },
      delivery := some call,
      httpOk := true }

/-- The edit endpoint (routes.py lines 153-163, admin_routes.py lines
166-177): unconditionally stores the new edited_answer. -/
def edit_letter_answer (l : Letter) (edited : String) : Letter :=
  { l with edited_answer := some edited }

/-- The admin approve endpoint (admin_routes.py lines 198-212): when approved,
status becomes APPROVED and a truthy edited_answer in the request is stored;
when not approved nothing is written. -/
def approve_letter_admin (l : Letter) (approved : Bool) (edited_answer : Option String) : Letter :=
  if approved then
    let l1 := { l with status := LetterStatus.approved }
    if pyStrFalsy edited_answer then l1 else { l1 with edited_answer := edited_answer }
  else l

/-- Result of the public approve endpoint: the persisted record and whether
the request succeeded. -/
structure ApproveOutcome where
  stored : Letter
  httpOk : Bool
  deriving DecidableEq, Repr

/-- The public approve endpoint (routes.py lines 182-199).  The approved
branch matches the admin variant.  The not-approved branch executes
`letter.status = LetterStatus.REJECTED` (line 194); the enum of
src/models/letter.py has no REJECTED member, so evaluating the attribute
raises AttributeError, the generic handler rolls the transaction back and
returns HTTP 500, leaving the stored record unchanged.  That failure path is
modelled as httpOk = false with stored = l. -/
def approve_letter_routes (l : Letter) (approved : Bool) (edited_answer : Option String) : ApproveOutcome :=
  if approved then
    let l1 := { l with status := LetterStatus.approved }
    { stored := if pyStrFalsy edited_answer then l1 else { l1 with edited_answer := edited_answer },
      httpOk := true }
  else
    { stored := l, httpOk := false }

/-! ## Workflow claims -/

/-- Claim C1.  send_letter on a letter whose status is not APPROVED, or on an
APPROVED letter whose sender_email is falsy (absent or empty), fails: the
stored record is exactly the input letter (status and sent_date in particular
are unchanged), no delivery call is made, and the request is rejected. -/
theorem send_letter_fails_without_approval_or_email (l : Letter) (now : Int)
    (h : l.status ≠ LetterStatus.approved ∨ pyStrFalsy l.sender_email = true) :
    (send_letter l now).stored = l ∧ (send_letter l now).delivery = none ∧
      (send_letter l now).httpOk = false := by
  rcases h with h | h
  · simp [send_letter, h]
  · by_cases hs : l.status = LetterStatus.approved
    · simp [send_letter, hs, h]
    · simp [send_letter, hs]

/-- Example letter used by witnesses: a pending letter without email. -/
def pendingLetter : Letter :=
  { received_date := 100
    sender_name := some "Иван Иванов"
    sender_email := none
    original_text := "прошу предоставить копию договора"
    letter_style := LetterStyle.business
    reply_deadline := 200
    status := LetterStatus.pending_approval
    generated_answer := "Сгенерированный ответ"
    edited_answer := none
    sent_date := none }

/-- Example letter used by witnesses: approved, with email and both answers
set to different values. -/
def approvedLetter : Letter :=
  { received_date := 100
    sender_name := some "Иван Иванов"
    sender_email := some "ivanov@example.com"
    original_text := "прошу предоставить копию договора"
    letter_style := LetterStyle.business
    reply_deadline := 200
    status := LetterStatus.approved
    generated_answer := "Сгенерированный ответ"
    edited_answer := some "Отредактированный ответ"
    sent_date := none }

/-- Example letter: approved but with an empty-string sender_email. -/
def approvedNoEmailLetter : Letter :=
  { approvedLetter with sender_email := some "" }

/-- Witness for claim C1: concrete failing sends on a non-approved letter and
on an approved letter lacking sender_email. -/
theorem send_letter_fails_witness :
    ((send_letter pendingLetter 5).stored = pendingLetter ∧
      (send_letter pendingLetter 5).delivery = none ∧
      (send_letter pendingLetter 5).httpOk = false) ∧
    ((send_letter approvedNoEmailLetter 5).stored = approvedNoEmailLetter ∧
      (send_letter approvedNoEmailLetter 5).delivery = none ∧
      (send_letter approvedNoEmailLetter 5).httpOk = false) :=
  ⟨send_letter_fails_without_approval_or_email pendingLetter 5 (Or.inl (by decide)),
   send_letter_fails_without_approval_or_email approvedNoEmailLetter 5 (Or.inr (by decide))⟩

/-- Claim C2.  Whenever send_letter succeeds, the delivery call exists and its
body is edited_answer when that is present and non-empty, and
generated_answer otherwise. -/
theorem send_letter_body_is_edited_or_generated (l : Letter) (now : Int)
    (h : (send_letter l now).httpOk = true) :
    ∃ call : EmailCall,
      (send_letter l now).delivery = some call ∧
      (∀ e : String, l.edited_answer = some e → e ≠ "" → call.body = e) ∧
      ((l.edited_answer = none ∨ l.edited_answer = some "") →
        call.body = l.generated_answer) := by
  by_cases hs : l.status = LetterStatus.approved
  · by_cases he : pyStrFalsy l.sender_email = true
    · simp [send_letter, hs, he] at h
    · refine ⟨⟨l.sender_email.getD "", l.sender_name, "Ответ на ваше обращение",
          pyOrStr l.edited_answer l.generated_answer⟩, ?_, ?_, ?_⟩
      · simp [send_letter, hs, he]
      · intro e hee hne
        simp [pyOrStr, hee, hne]
      · intro hcase
        rcases hcase with hc | hc <;> simp [pyOrStr, hc]
  · simp [send_letter, hs] at h

/-- Witness for claim C2: on a concrete approved letter whose edited and
generated answers differ, the delivery call receives the edited one. -/
theorem send_letter_body_witness :
    ∃ call : EmailCall,
      (send_letter approvedLetter 5).delivery = some call ∧
      call.body = "Отредактированный ответ" := by
  obtain ⟨call, hcall, hedit, _⟩ :=
    send_letter_body_is_edited_or_generated approvedLetter 5 (by decide)
  exact ⟨call, hcall, hedit "Отредактированный ответ" rfl (by decide)⟩

/-- Claim C3.  No workflow operation writes generated_answer: edit writes only
edited_answer; both approve variants write only status and possibly
edited_answer; send writes only status and sent_date.  In particular
generated_answer is preserved by every operation. -/
theorem workflow_preserves_generated_answer (l : Letter) (txt : String)
    (approved : Bool) (ed : Option String) (now : Int) :
    ((edit_letter_answer l txt).generated_answer = l.generated_answer ∧
      (edit_letter_answer l txt).status = l.status ∧
      (edit_letter_answer l txt).sent_date = l.sent_date) ∧
    ((approve_letter_admin l approved ed).generated_answer = l.generated_answer ∧
      (approve_letter_admin l approved ed).sent_date = l.sent_date) ∧
    ((approve_letter_routes l approved ed).stored.generated_answer = l.generated_answer ∧
      (approve_letter_routes l approved ed).stored.sent_date = l.sent_date) ∧
    ((send_letter l now).stored.generated_answer = l.generated_answer ∧
      (send_letter l now).stored.edited_answer = l.edited_answer) := by
  refine ⟨⟨rfl, rfl, rfl⟩, ?_, ?_, ?_⟩
  · unfold approve_letter_admin
    by_cases h : approved <;> by_cases hf : pyStrFalsy ed <;> simp [h, hf]
  · unfold approve_letter_routes
    by_cases h : approved <;> by_cases hf : pyStrFalsy ed <;> simp [h, hf]
  · unfold send_letter
    by_cases hs : l.status = LetterStatus.approved <;>
      by_cases he : pyStrFalsy l.sender_email <;> simp [hs, he]

/-- Claim C4 (code bug).  Disapproving through the public route never reaches
a REJECTED state: the 3-state enum has no such member, so the endpoint fails
(HTTP 500) and the stored record is unchanged; the admin variant silently
leaves the letter unchanged; approving sets APPROVED and stores a given
override text. -/
theorem approve_rejected_branch_is_broken :
    (approve_letter_routes pendingLetter false none).httpOk = false ∧
    (approve_letter_routes pendingLetter false none).stored = pendingLetter ∧
    approve_letter_admin pendingLetter false none = pendingLetter ∧
    (approve_letter_routes pendingLetter true (some "Правка")).stored.status =
      LetterStatus.approved ∧
    (approve_letter_routes pendingLetter true (some "Правка")).stored.edited_answer =
      some "Правка" := by
  refine ⟨rfl, rfl, rfl, ?_, ?_⟩ <;> decide

/-! ## Letter types, deadlines and styles (src/domain/letters/letter_types.py) -/

/-- Letter types, matching the values returned by the ML model
(letter_types.py lines 12-20). -/
inductive LetterType where
  | OFFICIAL_COMPLAINT_OR_CLAIM
  | REGULATORY_REQUEST
  | PARTNERSHIP_PROPOSAL
  | INFORMATION_DOCUMENT_REQUEST
  | NOTIFICATION_OR_INFORMATION
  | APPROVAL_REQUEST
  deriving DecidableEq, BEq, Repr

/-- The string value of each LetterType member (letter_types.py lines 15-20). -/
def letterTypeValue (t : LetterType) : String :=
  match t with
  | LetterType.OFFICIAL_COMPLAINT_OR_CLAIM => "Official Complaint or Claim"
  | LetterType.REGULATORY_REQUEST => "Regulatory Request"
  | LetterType.PARTNERSHIP_PROPOSAL => "Partnership Proposal"
  | LetterType.INFORMATION_DOCUMENT_REQUEST => "Information/Document Request"
  | LetterType.NOTIFICATION_OR_INFORMATION => "Notification or Information"
  | LetterType.APPROVAL_REQUEST => "Approval Request"

/-- Conversion from an ML classification string to a LetterType
(letter_types.py lines 23-32): `LetterType(classification)` with
APPROVAL_REQUEST as the fallback for unknown values. -/
def to_letter_type (classification : String) : LetterType :=
  if classification = "Official Complaint or Claim" then LetterType.OFFICIAL_COMPLAINT_OR_CLAIM
  else if classification = "Regulatory Request" then LetterType.REGULATORY_REQUEST
  else if classification = "Partnership Proposal" then LetterType.PARTNERSHIP_PROPOSAL
  else if classification = "Information/Document Request" then LetterType.INFORMATION_DOCUMENT_REQUEST
  else if classification = "Notification or Information" then LetterType.NOTIFICATION_OR_INFORMATION
  else if classification = "Approval Request" then LetterType.APPROVAL_REQUEST
  else LetterType.APPROVAL_REQUEST

/-- The deadline table of letter_types.py lines 39-46. -/
def deadline_mapping : List (LetterType × Nat) :=
  [(LetterType.OFFICIAL_COMPLAINT_OR_CLAIM, 3),
   (LetterType.REGULATORY_REQUEST, 5),
   (LetterType.INFORMATION_DOCUMENT_REQUEST, 7),
   (LetterType.PARTNERSHIP_PROPOSAL, 14),
   (LetterType.NOTIFICATION_OR_INFORMATION, 1),
   (LetterType.APPROVAL_REQUEST, 7)]

/-- Number of days until the reply deadline (letter_types.py lines 35-47):
`mapping.get(letter_type, 7)`. -/
def get_reply_deadline_days (t : LetterType) : Nat :=
  (deadline_mapping.lookup t).getD 7

/-- Automatic style determination (letter_types.py lines 50-63). -/
def get_letter_style (t : LetterType) : LetterStyle :=
  if t = LetterType.OFFICIAL_COMPLAINT_OR_CLAIM ∨ t = LetterType.REGULATORY_REQUEST then
    LetterStyle.formal
  else if t = LetterType.PARTNERSHIP_PROPOSAL then
    LetterStyle.business
  else
    LetterStyle.business

/-- Metadata computed by LetterProcessor.process_letter (letter_processor.py
lines 37-87) for a classified letter: received_date is now, reply_deadline is
now plus deadline-days (86400 seconds per day, `timedelta(days=...)`), and
letter_style is determined automatically when not supplied. -/
structure ProcessedMeta where
  received_date : Int
  reply_deadline : Int
  letter_style : LetterStyle
  deriving DecidableEq, Repr

/-- The deadline/style part of process_letter (letter_processor.py lines
59-66): optional arguments default to the type-derived values. -/
def process_letter_meta (classification : String) (letterStyleArg : Option LetterStyle)
    (deadlineDaysArg : Option Nat) (now : Int) : ProcessedMeta :=
  let letter_type := to_letter_type classification
  let style := match letterStyleArg with
    | some s => s
    | none => get_letter_style letter_type
  let days := match deadlineDaysArg with
    | some d => d
    | none => get_reply_deadline_days letter_type
  { received_date := now,
    reply_deadline := now + (days : Int) * 86400,
    letter_style := style }

/-- The six canonical classification strings. -/
def canonicalTypeStrings : List String :=
  ["Official Complaint or Claim", "Regulatory Request", "Partnership Proposal",
   "Information/Document Request", "Notification or Information", "Approval Request"]

/-- Claim C9.  The reply-deadline table: complaint 3, regulatory 5, document
request 7, partnership 14, notification 1, approval request 7; any
unrecognized classification string also yields 7 (via the APPROVAL_REQUEST
fallback); and process_letter sets reply_deadline to received_date plus that
number of days. -/
theorem reply_deadline_days_table :
    (get_reply_deadline_days LetterType.OFFICIAL_COMPLAINT_OR_CLAIM = 3 ∧
      get_reply_deadline_days LetterType.REGULATORY_REQUEST = 5 ∧
      get_reply_deadline_days LetterType.INFORMATION_DOCUMENT_REQUEST = 7 ∧
      get_reply_deadline_days LetterType.PARTNERSHIP_PROPOSAL = 14 ∧
      get_reply_deadline_days LetterType.NOTIFICATION_OR_INFORMATION = 1 ∧
      get_reply_deadline_days LetterType.APPROVAL_REQUEST = 7) ∧
    (∀ s : String, s ∉ canonicalTypeStrings →
      get_reply_deadline_days (to_letter_type s) = 7) ∧
    (∀ (c : String) (now : Int),
      (process_letter_meta c none none now).reply_deadline =
        (process_letter_meta c none none now).received_date +
          (get_reply_deadline_days (to_letter_type c) : Int) * 86400) := by
  refine ⟨by decide, ?_, ?_⟩
  · intro s hs
    simp only [canonicalTypeStrings, List.mem_cons, List.mem_singleton, not_or] at hs
    obtain ⟨h1, h2, h3, h4, h5, h6, -⟩ := hs
    have hconv : to_letter_type s = LetterType.APPROVAL_REQUEST := by
      simp [to_letter_type, h1, h2, h3, h4, h5, h6]
    rw [hconv]
    decide
  · intro c now
    rfl

/-- Witness for claim C9: a concrete unrecognized classification string falls
back to a 7-day deadline. -/
theorem reply_deadline_days_table_witness :
    get_reply_deadline_days (to_letter_type "Spam") = 7 :=
  reply_deadline_days_table.2.1 "Spam" (by decide)

/-- Claim C10.  Automatic style assignment returns FORMAL exactly for
official complaints/claims and regulatory requests and BUSINESS for every
other type; it never produces INFORMAL or CASUAL; and process_letter uses it
when no style is supplied. -/
theorem letter_style_is_formal_or_business :
    (∀ t : LetterType, get_letter_style t =
      (match t with
        | LetterType.OFFICIAL_COMPLAINT_OR_CLAIM => LetterStyle.formal
        | LetterType.REGULATORY_REQUEST => LetterStyle.formal
        | _ => LetterStyle.business)) ∧
    (∀ t : LetterType,
      get_letter_style t ≠ LetterStyle.informal ∧ get_letter_style t ≠ LetterStyle.casual) ∧
    (∀ (c : String) (now : Int),
      (process_letter_meta c none none now).letter_style =
        get_letter_style (to_letter_type c)) := by
  refine ⟨?_, ?_, ?_⟩
  · intro t; cases t <;> decide
  · intro t; cases t <;> exact ⟨by decide, by decide⟩
  · intro c now; rfl

/-! ## ML classifier confidence handling (src/services/ml_classifier.py) -/

/-- One loaded (vectorizer, classifier) pair as seen by _classify_with_ml:
the predicted label and, when the classifier exposes predict_proba, the
probability row for the input.  Probabilities are modelled as rationals. -/
structure TaskModel where
  prediction : String
  predict_proba : Option (List ℚ)
  deriving DecidableEq, Repr

/-- Python max() over a list, as applied to the probability row
(ml_classifier.py line 174).  Python max raises on an empty sequence; sklearn
probability rows are nonempty, which the theorems assume explicitly. -/
def pyMax (ps : List ℚ) : ℚ :=
  match ps with
  | [] => 0
  | p :: r => r.foldl max p

/-- Per-task confidence (ml_classifier.py lines 172-176): max class
probability when predict_proba exists, else the default 0.8. -/
def taskConfidence (m : TaskModel) : ℚ :=
  match m.predict_proba with
  | some ps => pyMax ps
  | none => 4/5

/-- The `{task}_confidence` entries of the classification dict built by the
loop of ml_classifier.py lines 159-179. -/
def confEntries (models : List (String × TaskModel)) : List (String × ℚ) :=
  models.map (fun tm => (tm.1 ++ "_confidence", taskConfidence tm.2))

/-- A confidence surfaced in the returned dict (ml_classifier.py lines
184-192): `classification.get(key, 0.7)`. -/
def surfacedConfidence (models : List (String × TaskModel)) (key : String) : ℚ :=
  ((confEntries models).lookup key).getD (7/10)

/-- Validity of a model's probability row: when predict_proba exists its row
is a nonempty list of values in [0,1] (as sklearn guarantees). -/
def probaOk (m : TaskModel) : Prop :=
  ∀ ps : List ℚ, m.predict_proba = some ps → ps ≠ [] ∧ ∀ p ∈ ps, 0 ≤ p ∧ p ≤ 1

theorem foldl_max_le_of_le {b : ℚ} :
    ∀ (r : List ℚ) (p : ℚ), p ≤ b → (∀ x ∈ r, x ≤ b) → r.foldl max p ≤ b := by
  intro r
  induction r with
  | nil => intro p hp _; exact hp
  | cons x t ih =>
    intro p hp hx
    have hxb : x ≤ b := hx x (by simp)
    exact ih (max p x) (max_le hp hxb) (fun y hy => hx y (by simp [hy]))

theorem le_foldl_max_of_le {c : ℚ} :
    ∀ (r : List ℚ) (p : ℚ), c ≤ p → c ≤ r.foldl max p := by
  intro r
  induction r with
  | nil => intro p hp; exact hp
  | cons x t ih =>
    intro p hp
    exact ih (max p x) (le_trans hp (le_max_left p x))

theorem lookup_mem_of_some {key : String} {v : ℚ} :
    ∀ (l : List (String × ℚ)), l.lookup key = some v → (key, v) ∈ l := by
  intro l
  induction l with
  | nil => intro h; simp [List.lookup] at h
  | cons e t ih =>
    obtain ⟨k1, v1⟩ := e
    intro h
    simp only [List.lookup] at h
    by_cases hk : key == k1
    · simp only [hk] at h
      have hkey : key = k1 := by simpa using hk
      have hv : v1 = v := by simpa using h
      subst hkey
      subst hv
      simp
    · simp only [hk] at h
      exact List.mem_cons_of_mem _ (ih h)

theorem taskConfidence_bounds (m : TaskModel) (h : probaOk m) :
    0 ≤ taskConfidence m ∧ taskConfidence m ≤ 1 := by
  cases hp : m.predict_proba with
  | none => simp [taskConfidence, hp]; norm_num
  | some ps =>
    obtain ⟨hne, hb⟩ := h ps hp
    cases ps with
    | nil => simp at hne
    | cons p r =>
      constructor
      · have := le_foldl_max_of_le r p (hb p (by simp)).1
        simpa [taskConfidence, hp, pyMax] using this
      · have := foldl_max_le_of_le r p (hb p (by simp)).2
          (fun x hx => (hb x (by simp [hx])).2)
        simpa [taskConfidence, hp, pyMax] using this

/-- Claim C8.  Every per-task confidence lies in [0,1] (assuming the external
classifier emits valid probability rows); without predict_proba the internal
confidence is exactly 0.8; and a task confidence absent from the per-task
results surfaces as exactly 0.7. -/
theorem classifier_confidence_spec :
    (∀ m : TaskModel, probaOk m → 0 ≤ taskConfidence m ∧ taskConfidence m ≤ 1) ∧
    (∀ m : TaskModel, m.predict_proba = none → taskConfidence m = 4/5) ∧
    (∀ (models : List (String × TaskModel)) (key : String),
      (∀ e ∈ models, probaOk e.2) →
      0 ≤ surfacedConfidence models key ∧ surfacedConfidence models key ≤ 1) ∧
    (∀ (models : List (String × TaskModel)) (key : String),
      (confEntries models).lookup key = none → surfacedConfidence models key = 7/10) := by
  refine ⟨taskConfidence_bounds, ?_, ?_, ?_⟩
  · intro m hm; simp [taskConfidence, hm]
  · intro models key hvalid
    cases hl : (confEntries models).lookup key with
    | none => simp [surfacedConfidence, hl]; norm_num
    | some v =>
      have hmem := lookup_mem_of_some _ hl
      simp only [confEntries, List.mem_map] at hmem
      obtain ⟨tm, htm, heq⟩ := hmem
      have hv : v = taskConfidence tm.2 := by
        have := congrArg Prod.snd heq
        simpa using this.symm
      have hb := taskConfidence_bounds tm.2 (hvalid tm htm)
      simp [surfacedConfidence, hl, hv]
      exact hb
  · intro models key hl
    simp [surfacedConfidence, hl]

/-- Witness for claim C8: concrete models exercising each clause, including a
probability row whose max is the surfaced confidence, the 0.8 internal
default, and the 0.7 fallback for a missing key. -/
theorem classifier_confidence_spec_witness :
    (0 ≤ taskConfidence ⟨"Approval Request", some [1/2, 1/4, 1/4]⟩ ∧
      taskConfidence ⟨"Approval Request", some [1/2, 1/4, 1/4]⟩ ≤ 1) ∧
    taskConfidence ⟨"Approval Request", none⟩ = 4/5 ∧
    (0 ≤ surfacedConfidence [("type", ⟨"Approval Request", some [1/2, 1/4, 1/4]⟩)] "type_confidence" ∧
      surfacedConfidence [("type", ⟨"Approval Request", some [1/2, 1/4, 1/4]⟩)] "type_confidence" ≤ 1) ∧
    surfacedConfidence [] "type_confidence" = 7/10 := by
  refine ⟨?_, ?_, ?_, ?_⟩
  · refine classifier_confidence_spec.1 _ ?_
    intro ps hps
    have hps' : ps = [1/2, 1/4, 1/4] := by simpa using hps.symm
    subst hps'
    refine ⟨by simp, ?_⟩
    intro p hp
    fin_cases hp <;> norm_num
  · exact classifier_confidence_spec.2.1 _ rfl
  · refine classifier_confidence_spec.2.2.1 _ _ ?_
    intro e he ps hps
    have he' : e = ("type", (⟨"Approval Request", some [1/2, 1/4, 1/4]⟩ : TaskModel)) := by
      simpa using he
    subst he'
    have hps' : ps = [1/2, 1/4, 1/4] := by simpa using hps.symm
    subst hps'
    refine ⟨by simp, ?_⟩
    intro p hp
    fin_cases hp <;> norm_num
  · exact classifier_confidence_spec.2.2.2 _ _ rfl

/-! ## Codepoint-level text utilities

Text handled by the preprocessing and generator modules is modelled at the
level of Unicode codepoints.  The case maps cover the ASCII and Cyrillic
repertoires the program processes (Python str.lower / str.upper restricted to
those ranges). -/

/-- Codepoints of a string. -/
def codes (s : String) : List Nat := s.data.map Char.toNat

/-- Lowercasing on codepoints: ASCII A-Z, Cyrillic А-Я and Ё. -/
def toLowerN (n : Nat) : Nat :=
  if 65 ≤ n ∧ n ≤ 90 then n + 32
  else if 1040 ≤ n ∧ n ≤ 1071 then n + 32
  else if n = 1025 then 1105
  else n

/-- Uppercasing on codepoints: ASCII a-z, Cyrillic а-я and ё. -/
def toUpperN (n : Nat) : Nat :=
  if 97 ≤ n ∧ n ≤ 122 then n - 32
  else if 1072 ≤ n ∧ n ≤ 1103 then n - 32
  else if n = 1105 then 1025
  else n

/-- Character-level lowercasing used by Python str.lower(). -/
def lowerChar (c : Char) : Char := Char.ofNat (toLowerN c.toNat)

/-- Character-level uppercasing used by Python str.upper(). -/
def upperChar (c : Char) : Char := Char.ofNat (toUpperN c.toNat)

/-- Python str.lower() on the repertoire used by the sources. -/
def pyLower (s : String) : String := String.mk (s.data.map lowerChar)

/-- Python str.upper() on the repertoire used by the sources. -/
def pyUpper (s : String) : String := String.mk (s.data.map upperChar)

/-! ## Reply style guidance (src/generator/generator.py) -/

/-- Style block stored under the key "complaint" (generator.py lines 230-237). -/
def styleComplaint : String := "
СТИЛЬ ДЛЯ ЖАЛОБЫ:
- Извиняющийся и понимающий тон
- Признание проблемы и ответственности банка
- Конкретные шаги по решению проблемы
- Указание сроков рассмотрения и ответа
- Предложение компенсации или исправления ситуации (если уместно)
- Контактные данные для дальнейшего общения"

/-- Style block stored under the key "regulatory" (generator.py lines 239-246). -/
def styleRegulatory : String := "
СТИЛЬ ДЛЯ РЕГУЛЯТОРНОГО ЗАПРОСА:
- Официальный, формальный стиль
- Ссылки на нормативные акты и регламенты
- Точные юридические формулировки
- Соблюдение требований регулятора
- Структурированное изложение информации
- Указание на соответствие требованиям"

/-- Style block stored under the key "partner_offer" (generator.py lines 248-255). -/
def stylePartnerOffer : String := "
СТИЛЬ ДЛЯ ПАРТНЕРСКОГО ПРЕДЛОЖЕНИЯ:
- Деловой, заинтересованный тон
- Профессиональная оценка предложения
- Указание на процедуры рассмотрения
- Предложение дальнейших шагов (встреча, переговоры)
- Благодарность за предложение
- Контактные данные ответственного лица"

/-- Style block stored under the key "document_request" (generator.py lines 257-264). -/
def styleDocumentRequest : String := "
СТИЛЬ ДЛЯ ЗАПРОСА ДОКУМЕНТОВ:
- Четкий, структурированный ответ
- Указание конкретных документов и сроков предоставления
- Способы получения документов
- Требования к оформлению (если есть)
- Контактные данные для уточнений
- Благодарность за обращение"

/-- Style block stored under the key "notification" (generator.py lines 266-273). -/
def styleNotice : String := "
СТИЛЬ ДЛЯ УВЕДОМЛЕНИЯ:
- Информативный, нейтральный стиль
- Четкое изложение фактов
- Структурированная подача информации
- Важные детали выделены
- Контактные данные для вопросов
- Профессиональный тон"

/-- The generic fallback block (generator.py lines 276-282). -/
def genericStyleGuidance : String := "
СТИЛЬ ДЛЯ ОБЩЕГО ПИСЬМА:
- Профессиональный деловой тон
- Четкость и конкретность
- Вежливое обращение
- Структурированное изложение
- Готовность к сотрудничеству"

/-- The style_guides dict of _get_style_guidance (generator.py lines 229-274):
five legacy short keys. -/
def style_guides : List (String × String) :=
  [(r"complaint", styleComplaint),
   (r"regulatory", styleRegulatory),
   (r"partner_offer", stylePartnerOffer),
   (r"document_request", styleDocumentRequest),
   (r"notification", styleNotice)]

/-- The lookup `style_guides.get(classification.lower(), generic)` of
generator.py line 276. -/
def get_style_guidance (classification : String) : String :=
  ((style_guides.lookup (pyLower classification))).getD genericStyleGuidance

/-- Head of the rendered user prompt of generate_reply (generator.py line
324), up to the interpolated style guidance. -/
def promptHead (classification : String) : String :=
  "ТИП ПИСЬМА: " ++ pyUpper classification ++ "\n\n"

/-- Remainder of the rendered user prompt of generate_reply (generator.py
lines 328-347), after the interpolated style guidance.  fields_str stands for
the JSON rendering of the extracted fields (or "Не найдено"). -/
def promptTail (classification fields_str text : String) : String :=
  "\n\nИЗВЛЕЧЕННЫЕ ПОЛЯ ИЗ ВХОДЯЩЕГО ПИСЬМА:\n" ++ fields_str ++
  "\n\nТЕКСТ ВХОДЯЩЕГО ПИСЬМА:\n" ++ text ++
  "\n\nЗАДАЧА:
Сгенерируй официальное деловое письмо банка, которое:
1. Соответствует официальному уровню деловой переписки
2. Адаптировано под тип письма (" ++ classification ++ ")
3. Исключает юридические ошибки
4. Соблюдает корпоративный стиль банка
5. Использует извлеченные поля точно как указано
6. Имеет правильную структуру делового письма

ВАЖНО:
- Не выдумывай информацию, которой нет во входящем письме
- Используй только указанные даты, номера договоров, суммы
- Соблюдай профессиональный тон банка
- Избегай юридических формулировок, которые могут создать риски"

/-- The user prompt rendered by generate_reply (generator.py lines 324-347). -/
def generate_reply_user_prompt (classification fields_str text : String) : String :=
  promptHead classification ++ get_style_guidance classification ++
    promptTail classification fields_str text

set_option maxRecDepth 16384 in
/-- Counterexample for claim C7: the canonical classification value
"Official Complaint or Claim" selects the generic fallback block, not the
dedicated complaint block, because the lookup table is keyed by the legacy
short tag "complaint". -/
theorem style_guidance_canonical_tag_misses_table :
    get_style_guidance (letterTypeValue LetterType.OFFICIAL_COMPLAINT_OR_CLAIM) =
      genericStyleGuidance ∧
    genericStyleGuidance ≠ styleComplaint ∧
    get_style_guidance (r"complaint") = styleComplaint := by
  refine ⟨by decide, by decide, by decide⟩

set_option maxRecDepth 16384 in
/-- Claim C7 as amended.  The style lookup table is keyed by the five legacy
short tags; every one of the six canonical letter-type tags misses the table
after lowercasing, so reply composition renders the generic fallback for each
of them, and the dedicated blocks are selected only by the legacy keys. -/
theorem style_guidance_table_amended :
    (∀ t : LetterType, get_style_guidance (letterTypeValue t) = genericStyleGuidance) ∧
    (∀ (t : LetterType) (fields_str text : String),
      generate_reply_user_prompt (letterTypeValue t) fields_str text =
        promptHead (letterTypeValue t) ++ genericStyleGuidance ++
          promptTail (letterTypeValue t) fields_str text) ∧
    get_style_guidance (r"complaint") = styleComplaint ∧
    get_style_guidance (r"regulatory") = styleRegulatory ∧
    get_style_guidance (r"partner_offer") = stylePartnerOffer ∧
    get_style_guidance (r"document_request") = styleDocumentRequest ∧
    get_style_guidance (r"notification") = styleNotice := by
  have htab : ∀ t : LetterType, get_style_guidance (letterTypeValue t) = genericStyleGuidance := by
    intro t; cases t <;> decide
  refine ⟨htab, ?_, by decide, by decide, by decide, by decide, by decide⟩
  intro t fields_str text
  rw [generate_reply_user_prompt, htab t]

/-! ## Character classes for the preprocessing regexes
(src/data_processing/preprocessing.py)

Python regex classes are modelled over the ASCII and Cyrillic repertoire the
patterns mention.  A codepoint abbreviation helper keeps matchers readable. -/

/-- Codepoint of a character. -/
def cp (c : Char) : Nat := c.toNat

/-- Python regex \s on the ASCII range (space, tab, newline, return, vertical
tab, form feed). -/
def isWsN (n : Nat) : Bool :=
  decide (n = 32 ∨ n = 9 ∨ n = 10 ∨ n = 13 ∨ n = 11 ∨ n = 12)

/-- Python regex \d (ASCII digits as used by the patterns). -/
def isDigitN (n : Nat) : Bool := decide (48 ≤ n ∧ n ≤ 57)

/-- Regex class [а-яё]: lowercase Cyrillic. -/
def isRuLowerN (n : Nat) : Bool := decide ((1072 ≤ n ∧ n ≤ 1103) ∨ n = 1105)

/-- Regex class [А-ЯЁ]: uppercase Cyrillic. -/
def isRuUpperN (n : Nat) : Bool := decide ((1040 ≤ n ∧ n ≤ 1071) ∨ n = 1025)

/-- A Cyrillic class under re.IGNORECASE: either case matches. -/
def isRuAnyN (n : Nat) : Bool := isRuLowerN n || isRuUpperN n

/-- ASCII letters. -/
def isAsciiLetterN (n : Nat) : Bool := decide ((65 ≤ n ∧ n ≤ 90) ∨ (97 ≤ n ∧ n ≤ 122))

/-- Python regex \w on the repertoire the program processes: ASCII letters,
digits, underscore and Cyrillic letters. -/
def isWordCharN (n : Nat) : Bool :=
  isAsciiLetterN n || isDigitN n || n == 95 || isRuLowerN n || isRuUpperN n

/-! ## Regex matching steps

Each step consumes codepoints from the front of the list and returns the
remainder (none on failure).  Greedy maximal munch is used; for the patterns
of preprocessing.py this is equivalent to Python's backtracking semantics
because in each pattern no character can satisfy both a repeated class and
the token that follows it. -/

/-- Repetition p{kmin,} (greedy, unbounded). -/
def classAtLeast (p : Nat → Bool) (kmin : Nat) (l : List Nat) : Option (List Nat) :=
  if kmin ≤ (l.takeWhile p).length then some (l.dropWhile p) else none

/-- Repetition p{kmin,kmax} (greedy, bounded). -/
def classBetween (p : Nat → Bool) (kmin kmax : Nat) (l : List Nat) : Option (List Nat) :=
  if kmin ≤ min (l.takeWhile p).length kmax then
    some (l.drop (min (l.takeWhile p).length kmax))
  else none

/-- Repetition p{k} (exactly k). -/
def classExact (p : Nat → Bool) (k : Nat) (l : List Nat) : Option (List Nat) :=
  if k ≤ (l.takeWhile p).length then some (l.drop k) else none

/-- A literal codepoint (case-sensitive). -/
def litN (c : Nat) : List Nat → Option (List Nat)
  | d :: r => if d = c then some r else none
  | [] => none

/-- A literal codepoint under re.IGNORECASE (compared after lowercasing). -/
def litCiN (c : Nat) : List Nat → Option (List Nat)
  | d :: r => if toLowerN d = c then some r else none
  | [] => none

/-- An optional literal codepoint c? (greedy). -/
def optLitN (c : Nat) : List Nat → List Nat
  | d :: r => if d = c then r else d :: r
  | [] => []

/-- An optional character class under re.IGNORECASE, e.g. [ауе]? (greedy). -/
def optClassCiN (cs : List Nat) : List Nat → List Nat
  | d :: r => if cs.contains (toLowerN d) then r else d :: r
  | [] => []

/-- A literal codepoint sequence under re.IGNORECASE. -/
def litStrCiN : List Nat → List Nat → Option (List Nat)
  | [], l => some l
  | c :: cs, l => (litCiN c l).bind (litStrCiN cs)

/-! ## The entity matchers of extract_entities (preprocessing.py lines 57-127)

Each matcher takes the text suffix starting at the candidate position and
returns the match length.  Matchers whose pattern starts with a word
boundary also receive whether the previous character was a word character.

In the two name patterns the optional surname/patronymic suffix alternations
(?:ов|ев|...)? and (?:ич|вна|...)? consist of characters from [а-яё], so
after the greedy [а-яё]{2,} munch they can only match inside the same
lowercase run; every accepting cover of such a run ends exactly at the run
boundary, hence the suffix groups change neither acceptance nor match length
and are subsumed by the maximal [а-яё]{2,} munch. -/

/-- Pattern (line 67):
\b[А-ЯЁ][а-яё]{2,}(?:ов|ев|ин|ын|ая|ья|ий|ой)?\s+[А-ЯЁ][а-яё]{2,}\s+[А-ЯЁ][а-яё]{2,}(?:ич|вна|вич|овна|евич|ельевна)? -/
def mFullName (pw : Bool) (l : List Nat) : Option Nat :=
  if pw then none else
  (classExact isRuUpperN 1 l).bind fun r1 =>
  (classAtLeast isRuLowerN 2 r1).bind fun r2 =>
  (classAtLeast isWsN 1 r2).bind fun r3 =>
  (classExact isRuUpperN 1 r3).bind fun r4 =>
  (classAtLeast isRuLowerN 2 r4).bind fun r5 =>
  (classAtLeast isWsN 1 r5).bind fun r6 =>
  (classExact isRuUpperN 1 r6).bind fun r7 =>
  (classAtLeast isRuLowerN 2 r7).bind fun r8 =>
  some (l.length - r8.length)

/-- Pattern (line 76):
\b[А-ЯЁ][а-яё]{2,}(?:ов|ев|ин|ын|ая|ья|ий|ой)?\s+[А-ЯЁ]\.\s*[А-ЯЁ]\. -/
def mInitials (pw : Bool) (l : List Nat) : Option Nat :=
  if pw then none else
  (classExact isRuUpperN 1 l).bind fun r1 =>
  (classAtLeast isRuLowerN 2 r1).bind fun r2 =>
  (classAtLeast isWsN 1 r2).bind fun r3 =>
  (classExact isRuUpperN 1 r3).bind fun r4 =>
  (litN (cp '.') r4).bind fun r5 =>
  (classAtLeast isWsN 0 r5).bind fun r6 =>
  (classExact isRuUpperN 1 r6).bind fun r7 =>
  (litN (cp '.') r7).bind fun r8 =>
  some (l.length - r8.length)

/-- Date pattern (line 84): \d{1,2}-\d{1,2}\s+[а-яё]+\s+\d{4}\s+года?
(applied with re.IGNORECASE). -/
def mDate1 (l : List Nat) : Option Nat :=
  (classBetween isDigitN 1 2 l).bind fun r1 =>
  (litN (cp '-') r1).bind fun r2 =>
  (classBetween isDigitN 1 2 r2).bind fun r3 =>
  (classAtLeast isWsN 1 r3).bind fun r4 =>
  (classAtLeast isRuAnyN 1 r4).bind fun r5 =>
  (classAtLeast isWsN 1 r5).bind fun r6 =>
  (classExact isDigitN 4 r6).bind fun r7 =>
  (classAtLeast isWsN 1 r7).bind fun r8 =>
  (litCiN (cp 'г') r8).bind fun r9 =>
  (litCiN (cp 'о') r9).bind fun r10 =>
  (litCiN (cp 'д') r10).bind fun r11 =>
  some (l.length - (optClassCiN [cp 'а'] r11).length)

/-- Date pattern (line 85): \d{1,2}\s+[а-яё]+\s+\d{4}\s+года?
(applied with re.IGNORECASE). -/
def mDate2 (l : List Nat) : Option Nat :=
  (classBetween isDigitN 1 2 l).bind fun r1 =>
  (classAtLeast isWsN 1 r1).bind fun r2 =>
  (classAtLeast isRuAnyN 1 r2).bind fun r3 =>
  (classAtLeast isWsN 1 r3).bind fun r4 =>
  (classExact isDigitN 4 r4).bind fun r5 =>
  (classAtLeast isWsN 1 r5).bind fun r6 =>
  (litCiN (cp 'г') r6).bind fun r7 =>
  (litCiN (cp 'о') r7).bind fun r8 =>
  (litCiN (cp 'д') r8).bind fun r9 =>
  some (l.length - (optClassCiN [cp 'а'] r9).length)

/-- Date pattern (line 86): \d{1,2}\.\d{1,2}\.\d{4} -/
def mDate3 (l : List Nat) : Option Nat :=
  (classBetween isDigitN 1 2 l).bind fun r1 =>
  (litN (cp '.') r1).bind fun r2 =>
  (classBetween isDigitN 1 2 r2).bind fun r3 =>
  (litN (cp '.') r3).bind fun r4 =>
  (classExact isDigitN 4 r4).bind fun r5 =>
  some (l.length - r5.length)

/-- Date pattern (line 87): \d{4}-\d{1,2}-\d{1,2} -/
def mDate4 (l : List Nat) : Option Nat :=
  (classExact isDigitN 4 l).bind fun r1 =>
  (litN (cp '-') r1).bind fun r2 =>
  (classBetween isDigitN 1 2 r2).bind fun r3 =>
  (litN (cp '-') r3).bind fun r4 =>
  (classBetween isDigitN 1 2 r4).bind fun r5 =>
  some (l.length - r5.length)

/-- Contract pattern (line 101): №+[А-ЯЁ]{1,3}-?\d{1,6}
(applied with re.IGNORECASE). -/
def mContract1 (l : List Nat) : Option Nat :=
  (classAtLeast (fun n => n == cp '№') 1 l).bind fun r1 =>
  (classBetween isRuAnyN 1 3 r1).bind fun r2 =>
  (classBetween isDigitN 1 6 (optLitN (cp '-') r2)).bind fun r3 =>
  some (l.length - r3.length)

/-- Contract pattern (line 102): договор[ауе]?\s+№+[А-ЯЁ]{0,3}-?\d{1,6}
(applied with re.IGNORECASE). -/
def mContract2 (l : List Nat) : Option Nat :=
  (litStrCiN (codes (r"договор")) l).bind fun r1 =>
  (classAtLeast isWsN 1 (optClassCiN [cp 'а', cp 'у', cp 'е'] r1)).bind fun r2 =>
  (classAtLeast (fun n => n == cp '№') 1 r2).bind fun r3 =>
  (classBetween isRuAnyN 0 3 r3).bind fun r4 =>
  (classBetween isDigitN 1 6 (optLitN (cp '-') r4)).bind fun r5 =>
  some (l.length - r5.length)

/-- The keyword pattern of the contract cleanup (line 108): договор[ауе]?\s+
(applied with re.IGNORECASE inside re.sub). -/
def mContractKw (l : List Nat) : Option Nat :=
  (litStrCiN (codes (r"договор")) l).bind fun r1 =>
  (classAtLeast isWsN 1 (optClassCiN [cp 'а', cp 'у', cp 'е'] r1)).bind fun r2 =>
  some (l.length - r2.length)

/-- Account pattern (line 114): счет[ауе]?\s+№?\s*\d{5,}
(applied with re.IGNORECASE). -/
def mAccount1 (l : List Nat) : Option Nat :=
  (litStrCiN (codes (r"счет")) l).bind fun r1 =>
  (classAtLeast isWsN 1 (optClassCiN [cp 'а', cp 'у', cp 'е'] r1)).bind fun r2 =>
  (classAtLeast isWsN 0 (optLitN (cp '№') r2)).bind fun r3 =>
  (classAtLeast isDigitN 5 r3).bind fun r4 =>
  some (l.length - r4.length)

/-- Account pattern (line 115): №\s*\d{16,} -/
def mAccount2 (l : List Nat) : Option Nat :=
  (litN (cp '№') l).bind fun r1 =>
  (classAtLeast isWsN 0 r1).bind fun r2 =>
  (classAtLeast isDigitN 16 r2).bind fun r3 =>
  some (l.length - r3.length)

/-- Account pattern (line 116): \b\d{16,}\b.  The trailing boundary requires
the character after the maximal digit run to be a non-word character (or the
end of the text). -/
def mAccount3 (pw : Bool) (l : List Nat) : Option Nat :=
  if pw then none else
  match classAtLeast isDigitN 16 l with
  | none => none
  | some r =>
    match r with
    | [] => some (l.length - 0)
    | c :: _ => if isWordCharN c then none else some (l.length - r.length)

/-- The digit-run pattern \d{5,} of the account cleanup (line 122). -/
def mDigits5 (l : List Nat) : Option Nat :=
  (classAtLeast isDigitN 5 l).bind fun r =>
  some (l.length - r.length)

/-! ## Scanning (re.findall / re.sub / str.replace semantics) -/

/-- Word-boundary state after consuming a span: the last consumed character's
wordness (or the previous state if nothing was consumed). -/
def scanTokenEnd (pw : Bool) (consumed : List Nat) : Bool :=
  match consumed.getLast? with
  | some c => isWordCharN c
  | none => pw

/-- Fuel-driven left-to-right scan implementing re.findall: at each position
try the matcher; on failure advance one character, on success emit the match
and continue after it.  The boundary flag pw tracks whether the previous
character is a word character (for patterns).  Fuel equal to the
text length is always sufficient since every step consumes at least one
character. -/
def scanAll (m : Bool → List Nat → Option Nat) : Nat → Bool → List Nat → List (List Nat)
  | 0, _, _ => []
  | fuel + 1, pw, l =>
    match l with
    | [] => []
    | c :: rest =>
      match m pw l with
      | none => scanAll m fuel (isWordCharN c) rest
      | some k =>
        let k1 := max k 1
        (l.take k) :: scanAll m fuel (scanTokenEnd pw (l.take k1)) (l.drop k1)

/-- re.findall over a text, starting at a word boundary. -/
def findall (m : Bool → List Nat → Option Nat) (l : List Nat) : List (List Nat) :=
  scanAll m l.length false l

/-- Wrapper for matchers whose pattern has no word-boundary anchor. -/
def noB (m : List Nat → Option Nat) : Bool → List Nat → Option Nat := fun _ l => m l

/-- Fuel-driven scan implementing re.sub(pattern, '', text): matched spans
are deleted, other characters are kept. -/
def scanSub (m : List Nat → Option Nat) : Nat → List Nat → List Nat
  | 0, l => l
  | fuel + 1, l =>
    match l with
    | [] => []
    | c :: rest =>
      match m l with
      | none => c :: scanSub m fuel rest
      | some k => scanSub m fuel (l.drop (max k 1))

/-- re.sub(pattern, '', text). -/
def pySub (m : List Nat → Option Nat) (l : List Nat) : List Nat := scanSub m l.length l

/-- Boolean prefix test on codepoint lists. -/
def isPrefN : List Nat → List Nat → Bool
  | [], _ => true
  | _ :: _, [] => false
  | x :: xs, y :: ys => x == y && isPrefN xs ys

/-- Fuel-driven left-to-right scan implementing Python str.replace: every
non-overlapping occurrence of sub is replaced by repl.  The entity spans
passed by remove_personal_data are always nonempty. -/
def strReplaceF (sub repl : List Nat) : Nat → List Nat → List Nat
  | 0, l => l
  | fuel + 1, l =>
    match l with
    | [] => []
    | c :: rest =>
      if isPrefN sub l then repl ++ strReplaceF sub repl fuel (l.drop sub.length)
      else c :: strReplaceF sub repl fuel rest

/-- Python str.replace(sub, repl). -/
def pyReplace (l sub repl : List Nat) : List Nat := strReplaceF sub repl l.length l

/-- Python str.strip() (whitespace at both ends). -/
def pyStrip (l : List Nat) : List Nat :=
  ((l.dropWhile isWsN).reverse.dropWhile isWsN).reverse

/-- Python substring test `a in b`. -/
def substrOf (a : List Nat) : List Nat → Bool
  | [] => isPrefN a []
  | c :: bs => isPrefN a (c :: bs) || substrOf a bs

/-- Append x unless already present (the `if x not in acc: acc.append(x)`
idiom of extract_entities). -/
def addUnique (acc : List (List Nat)) (x : List Nat) : List (List Nat) :=
  if acc.contains x then acc else acc ++ [x]

/-! ## extract_entities and remove_personal_data
(preprocessing.py lines 57-143) -/

/-- The greeting/verb exclusion list of line 71. -/
def exclude_words : List (List Nat) :=
  [codes (r"уважаемый"), codes (r"просим"), codes (r"требуем"),
   codes (r"сообщаем"), codes (r"информируем"), codes (r"подтверждаем")]

/-- `name.split()[0].lower()` for a matched name (names start with a letter,
so the first chunk is the leading non-whitespace run). -/
def firstWordLower (nm : List Nat) : List Nat :=
  (nm.takeWhile (fun c => !isWsN c)).map toLowerN

/-- The names list of extract_entities (lines 66-80): full-name matches with
the greeting exclusion, then surname-plus-initials matches, de-duplicated in
first-seen order. -/
def namesOf (t : List Nat) : List (List Nat) :=
  let names1 := (findall mFullName t).foldl
    (fun acc nm =>
      if exclude_words.contains (firstWordLower nm) then acc else addUnique acc nm) []
  (findall mInitials t).foldl addUnique names1

/-- All date-pattern matches in pattern order (lines 83-92). -/
def dateCandidates (t : List Nat) : List (List Nat) :=
  findall (noB mDate1) t ++ findall (noB mDate2) t ++
    findall (noB mDate3) t ++ findall (noB mDate4) t

/-- The date acceptance loop of lines 90-97: a match is discarded when some
distinct already-found date contains it or is contained in it; otherwise it
is added to the found set and appended to the result list. -/
def dateFold : List (List Nat) → List (List Nat) → List (List Nat) →
    List (List Nat) × List (List Nat)
  | [], found, res => (found, res)
  | m :: ms, found, res =>
    if found.any (fun d => !(m == d) && (substrOf m d || substrOf d m)) then
      dateFold ms found res
    else
      dateFold ms (if found.contains m then found else found ++ [m]) (res ++ [m])

/-- The dates list of extract_entities. -/
def datesOf (t : List Nat) : List (List Nat) :=
  (dateFold (dateCandidates t) [] []).2

/-- Contract-number cleanup (line 108): drop the leading keyword and strip. -/
def cleanContract (m : List Nat) : List Nat := pyStrip (pySub mContractKw m)

/-- The contract_numbers list of extract_entities (lines 99-110). -/
def contractsOf (t : List Nat) : List (List Nat) :=
  (findall (noB mContract1) t ++ findall (noB mContract2) t).foldl
    (fun acc m => addUnique acc (cleanContract m)) []

/-- The account_numbers list of extract_entities (lines 112-125): digit runs
of length at least 5 inside each pattern match, kept when of length at least
16 and not yet present. -/
def accountsOf (t : List Nat) : List (List Nat) :=
  (findall (noB mAccount1) t ++ findall (noB mAccount2) t ++ findall mAccount3 t).foldl
    (fun acc m =>
      (findall (noB mDigits5) m).foldl
        (fun acc2 num =>
          if 16 ≤ num.length ∧ ¬acc2.contains num then acc2 ++ [num] else acc2) acc) []

/-- The result dictionary of extract_entities (lines 59-64). -/
structure Entities where
  names : List (List Nat)
  dates : List (List Nat)
  contract_numbers : List (List Nat)
  account_numbers : List (List Nat)
  deriving DecidableEq, Repr

/-- extract_entities (preprocessing.py lines 57-127). -/
def extract_entities (t : List Nat) : Entities :=
  { names := namesOf t,
    dates := datesOf t,
    contract_numbers := contractsOf t,
    account_numbers := accountsOf t }

/-- remove_personal_data (preprocessing.py lines 129-143): textual
substitution of every found entity span by its category placeholder. -/
def remove_personal_data (t : List Nat) : List Nat :=
  let e := extract_entities t
  let t1 := e.names.foldl (fun acc nm => pyReplace acc nm (codes (r"[ФИО]"))) t
  let t2 := e.dates.foldl (fun acc d => pyReplace acc d (codes (r"[ДАТА]"))) t1
  let t3 := e.contract_numbers.foldl
    (fun acc c => pyReplace acc c (codes (r"[НОМЕР_ДОГОВОРА]"))) t2
  e.account_numbers.foldl (fun acc a => pyReplace acc a (codes (r"[НОМЕР_СЧЕТА]"))) t3

/-! ## Normalization pipeline (preprocessing.py lines 14-55 and 145-175) -/

/-- The Russian stop-word set of preprocessing.py lines 14-21. -/
def RUSSIAN_STOP_WORDS : List (List Nat) :=
  ([r"и", r"в", r"во", r"не", r"что", r"он", r"на", r"я", r"с", r"со", r"как",
    r"а", r"то", r"все", r"она", r"так", r"его", r"но", r"да", r"ты", r"к",
    r"у", r"же", r"вы", r"за", r"бы", r"по", r"только", r"ее", r"мне",
    r"было", r"вот", r"от", r"меня", r"еще", r"нет", r"о", r"из", r"ему",
    r"теперь", r"когда", r"даже", r"ну", r"вдруг", r"ли", r"если", r"уже",
    r"или", r"ни", r"быть", r"был", r"него", r"до", r"вас", r"нибудь",
    r"опять", r"уж", r"вам", r"ведь", r"там", r"потом", r"себя", r"ничего",
    r"ей", r"может", r"они", r"тут", r"где", r"есть"]).map codes

/-- Python str.split(): maximal non-whitespace chunks, empties dropped. -/
def splitWs (l : List Nat) : List (List Nat) :=
  (l.splitOnP isWsN).filter (fun w => !w.isEmpty)

/-- Python ' '.join(tokens). -/
def joinSp : List (List Nat) → List Nat
  | [] => []
  | [w] => w
  | w :: ws => w ++ cp ' ' :: joinSp ws

/-- remove_punctuation (lines 23-27): re.sub(r'[^\w\s]', ' ', text) followed
by whitespace collapsing and strip.  Collapsing each whitespace run to one
space and stripping the ends is the same as splitting into maximal
non-whitespace chunks and joining with single spaces. -/
def remove_punctuation (l : List Nat) : List Nat :=
  joinSp (splitWs (l.map (fun c => if isWordCharN c || isWsN c then c else cp ' ')))

/-- remove_numbers (lines 29-33): re.sub(r'\d+', '', text) deletes every
digit; then whitespace collapsing and strip as above. -/
def remove_numbers (l : List Nat) : List Nat :=
  joinSp (splitWs (l.filter (fun c => !isDigitN c)))

/-- tokenize (lines 35-38): text.lower().split(). -/
def tokenize (l : List Nat) : List (List Nat) :=
  splitWs (l.map toLowerN)

/-- remove_stop_words (lines 40-44): None selects the default set. -/
def remove_stop_words (tokens : List (List Nat)) (stop_words : Option (List (List Nat))) :
    List (List Nat) :=
  tokens.filter (fun t => !(stop_words.getD RUSSIAN_STOP_WORDS).contains t)

/-- lemmatize_tokens (lines 46-55).  The morphological analyzer pymorphy3 is
an external collaborator: its presence is the flag useLem (USE_LEMMATIZATION,
lines 6-11) and its per-token normal form the function lem.  When the
capability is absent tokens pass through unchanged. -/
def lemmatize_tokens (useLem : Bool) (lem : List Nat → List Nat)
    (tokens : List (List Nat)) : List (List Nat) :=
  if useLem then tokens.map lem else tokens

/-- enhanced_preprocess_text (preprocessing.py lines 145-175), on codepoint
lists.  Flags default to true and custom_stop_words to none at the call
sites; useLem and lem model the external lemmatization capability. -/
def enhanced_preprocess_text (useLem : Bool) (lem : List Nat → List Nat)
    (remove_personal_data_flag remove_stop_words_flag remove_punctuation_flag
      remove_numbers_flag lemmatize_flag : Bool)
    (custom_stop_words : Option (List (List Nat))) (text : List Nat) : List Nat :=
  let t1 := if remove_personal_data_flag then remove_personal_data text else text
  let t2 := t1.map toLowerN
  let t3 := if remove_punctuation_flag then remove_punctuation t2 else t2
  let t4 := if remove_numbers_flag then remove_numbers t3 else t3
  let toks := tokenize t4
  let toks2 := if remove_stop_words_flag then remove_stop_words toks custom_stop_words else toks
  let toks3 := if lemmatize_flag && useLem then lemmatize_tokens useLem lem toks2 else toks2
  joinSp toks3

/-- The normalization used by the classifier
(enhanced_preprocess_text(text, remove_personal_data_flag=True) with all
other flags at their defaults, ml_classifier.py line 161). -/
def normalizeText (useLem : Bool) (lem : List Nat → List Nat) (text : List Nat) : List Nat :=
  enhanced_preprocess_text useLem lem true true true true true none text

/-! ## Claim C5: the date acceptance loop -/

theorem dateFold_cond_false {m d : List Nat}
    (h : (!(m == d) && (substrOf m d || substrOf d m)) = false) :
    m = d ∨ (substrOf m d = false ∧ substrOf d m = false) := by
  rcases Bool.and_eq_false_iff.mp h with h1 | h2
  · left
    simpa using h1
  · right
    simpa [Bool.or_eq_false_iff] using h2

/-- Invariant of the date acceptance loop: the found set and the result list
have the same members, and no two distinct found dates are in the substring
relation. -/
theorem dateFold_invariant :
    ∀ (ms found res : List (List Nat)),
      (∀ x, x ∈ found ↔ x ∈ res) →
      (∀ a ∈ found, ∀ b ∈ found, a ≠ b →
        substrOf a b = false ∧ substrOf b a = false) →
      (∀ x, x ∈ (dateFold ms found res).2 ↔ x ∈ (dateFold ms found res).1) ∧
      (∀ a ∈ (dateFold ms found res).1, ∀ b ∈ (dateFold ms found res).1, a ≠ b →
        substrOf a b = false ∧ substrOf b a = false) := by
  intro ms
  induction ms with
  | nil =>
    intro found res hmem hns
    exact ⟨fun x => (hmem x).symm, hns⟩
  | cons m ms ih =>
    intro found res hmem hns
    by_cases hc : found.any (fun d => !(m == d) && (substrOf m d || substrOf d m)) = true
    · simpa only [dateFold, hc, if_true] using ih found res hmem hns
    · have hall : ∀ d ∈ found, (!(m == d) && (substrOf m d || substrOf d m)) = false := by
        have := List.any_eq_false.mp (Bool.eq_false_iff.mpr hc)
        simpa using this
      have hmem' : ∀ x, x ∈ (if found.contains m then found else found ++ [m]) ↔
          x ∈ res ++ [m] := by
        intro x
        by_cases hin : found.contains m
        · rw [if_pos hin]
          have hm : m ∈ found := by simpa using hin
          simp only [List.mem_append, List.mem_singleton]
          constructor
          · intro hx
            exact Or.inl ((hmem x).mp hx)
          · rintro (hx | rfl)
            · exact (hmem x).mpr hx
            · exact hm
        · rw [if_neg hin]
          simp only [List.mem_append, List.mem_singleton]
          constructor
          · rintro (hx | hx)
            · exact Or.inl ((hmem x).mp hx)
            · exact Or.inr hx
          · rintro (hx | hx)
            · exact Or.inl ((hmem x).mpr hx)
            · exact Or.inr hx
      have hns' : ∀ a ∈ (if found.contains m then found else found ++ [m]),
          ∀ b ∈ (if found.contains m then found else found ++ [m]), a ≠ b →
          substrOf a b = false ∧ substrOf b a = false := by
        intro a ha b hb hab
        by_cases hin : found.contains m
        · rw [if_pos hin] at ha hb
          exact hns a ha b hb hab
        · rw [if_neg hin] at ha hb
          have ha' : a ∈ found ∨ a = m := by
            simpa using List.mem_append.mp ha
          have hb' : b ∈ found ∨ b = m := by
            simpa using List.mem_append.mp hb
          rcases ha' with ha1 | ha1
          · rcases hb' with hb1 | hb1
            · exact hns a ha1 b hb1 hab
            · subst hb1
              rcases dateFold_cond_false (hall a ha1) with h | h
              · exact absurd h.symm hab
              · exact ⟨h.2, h.1⟩
          · subst ha1
            rcases hb' with hb1 | hb1
            · rcases dateFold_cond_false (hall b hb1) with h | h
              · exact absurd h hab
              · exact h
            · subst hb1
              exact absurd rfl hab
      have hstep := ih (if found.contains m then found else found ++ [m]) (res ++ [m])
        hmem' hns'
      simpa only [dateFold, hc, if_false] using hstep

/-- Claim C5 as amended.  A later date match that is a proper substring of,
or properly contains, an already-accepted date is discarded, so no two
distinct accepted dates stand in the substring relation; and for a text
containing "12 января 2024 года" only the long match is accepted.  (An exact
repeat of an accepted date is not discarded; see the counterexample.) -/
theorem extract_dates_no_nested_matches :
    (∀ (t a b : List Nat), a ∈ datesOf t → b ∈ datesOf t → a ≠ b →
      substrOf a b = false ∧ substrOf b a = false) ∧
    datesOf (codes (r"до 12 января 2024 года")) = [codes (r"12 января 2024 года")] := by
  constructor
  · intro t a b ha hb hab
    have h := dateFold_invariant (dateCandidates t) [] [] (by simp) (by simp)
    exact h.2 a ((h.1 a).mp ha) b ((h.1 b).mp hb) hab
  · decide

/-- Witness for claim C5: two distinct dates accepted from one concrete text
are not substrings of one another. -/
theorem extract_dates_no_nested_matches_witness :
    substrOf (codes (r"12 января 2024 года")) (codes (r"01.02.2023")) = false ∧
    substrOf (codes (r"01.02.2023")) (codes (r"12 января 2024 года")) = false :=
  extract_dates_no_nested_matches.1 (codes (r"01.02.2023 и 12 января 2024 года"))
    (codes (r"12 января 2024 года")) (codes (r"01.02.2023"))
    (by decide) (by decide) (by decide)

/-- Counterexample for claim C5 as stated: an exact repeat of an accepted
date is itself a substring of that accepted date, yet it is not discarded —
the dates list of extract_entities carries it twice. -/
theorem extract_dates_keeps_exact_duplicate :
    datesOf (codes (r"01.02.2023 01.02.2023")) =
      [codes (r"01.02.2023"), codes (r"01.02.2023")] ∧
    substrOf (codes (r"01.02.2023")) (codes (r"01.02.2023")) = true := by
  constructor <;> decide

/-! ## Claim C6: idempotence of the normalization pipeline

The development below characterizes the output of the pipeline (single-space
separated tokens of lowercase-stable word characters, none a stop word) and
shows every pipeline stage fixes such texts. -/

theorem toLowerN_idem (n : Nat) : toLowerN (toLowerN n) = toLowerN n := by
  unfold toLowerN
  split_ifs <;> omega

theorem toLowerN_word {n : Nat} (h : isWordCharN n = true) :
    isWordCharN (toLowerN n) = true := by
  simp only [isWordCharN, isAsciiLetterN, isDigitN, isRuLowerN, isRuUpperN,
    Bool.or_eq_true, decide_eq_true_eq, beq_iff_eq] at h ⊢
  unfold toLowerN
  split_ifs <;> omega

theorem toLowerN_not_digit {n : Nat} (h : isDigitN n = false) :
    isDigitN (toLowerN n) = false := by
  simp only [isDigitN, decide_eq_false_iff_not] at h ⊢
  unfold toLowerN
  split_ifs <;> omega

theorem toLowerN_not_ws {n : Nat} (h : isWsN n = false) :
    isWsN (toLowerN n) = false := by
  simp only [isWsN, decide_eq_false_iff_not] at h ⊢
  unfold toLowerN
  split_ifs <;> omega

theorem not_ruUpper_of_lower_fixed {n : Nat} (h : toLowerN n = n) :
    isRuUpperN n = false := by
  simp only [isRuUpperN, decide_eq_false_iff_not]
  unfold toLowerN at h
  intro hru
  rcases hru with h1 | h1 <;> (split_ifs at h <;> omega)

theorem word_ne_numero {n : Nat} (h : isWordCharN n = true) : n ≠ 8470 := by
  simp only [isWordCharN, isAsciiLetterN, isDigitN, isRuLowerN, isRuUpperN,
    Bool.or_eq_true, decide_eq_true_eq, beq_iff_eq] at h
  omega

theorem mapIdOn {f : Nat → Nat} :
    ∀ (l : List Nat), (∀ c ∈ l, f c = c) → l.map f = l := by
  intro l
  induction l with
  | nil => intro _; rfl
  | cons c rest ih =>
    intro h
    simp only [List.map_cons]
    rw [h c (by simp), ih (fun d hd => h d (by simp [hd]))]

theorem takeWhile_nil_of {p : Nat → Bool} {l : List Nat}
    (h : ∀ c ∈ l, p c = false) : l.takeWhile p = [] := by
  cases l with
  | nil => rfl
  | cons c rest => simp [List.takeWhile, h c (by simp)]

theorem splitOnP_chunk_chars {p : Nat → Bool} :
    ∀ (l : List Nat), ∀ w ∈ l.splitOnP p, ∀ c ∈ w, c ∈ l ∧ p c = false := by
  intro l
  induction l with
  | nil =>
    intro w hw c hc
    rw [List.splitOnP_nil] at hw
    simp only [List.mem_singleton] at hw
    subst hw
    simp at hc
  | cons x xs ih =>
    intro w hw c hc
    rw [List.splitOnP_cons] at hw
    by_cases hx : p x
    · rw [if_pos hx] at hw
      rcases List.mem_cons.mp hw with rfl | hw
      · simp at hc
      · have h := ih w hw c hc
        exact ⟨List.mem_cons_of_mem _ h.1, h.2⟩
    · rw [if_neg hx] at hw
      obtain ⟨hh, tt, hht⟩ : ∃ hh tt, xs.splitOnP p = hh :: tt := by
        cases hsp : xs.splitOnP p with
        | nil => exact absurd hsp (List.splitOnP_ne_nil p xs)
        | cons hh tt => exact ⟨hh, tt, rfl⟩
      rw [hht] at hw
      simp only [List.modifyHead] at hw
      rcases List.mem_cons.mp hw with rfl | hw
      · rcases List.mem_cons.mp hc with rfl | hc
        · exact ⟨List.mem_cons_self _ _, by simpa using hx⟩
        · have h := ih hh (by rw [hht]; exact List.mem_cons_self _ _) c hc
          exact ⟨List.mem_cons_of_mem _ h.1, h.2⟩
      · have h := ih w (by rw [hht]; exact List.mem_cons_of_mem _ hw) c hc
        exact ⟨List.mem_cons_of_mem _ h.1, h.2⟩

theorem splitWs_chunks {l : List Nat} :
    ∀ w ∈ splitWs l, w ≠ [] ∧ ∀ c ∈ w, c ∈ l ∧ isWsN c = false := by
  intro w hw
  unfold splitWs at hw
  have hne : (!w.isEmpty) = true := (List.mem_filter.mp hw).2
  have hmem : w ∈ l.splitOnP isWsN := (List.mem_filter.mp hw).1
  constructor
  · intro hempty
    subst hempty
    simp at hne
  · exact splitOnP_chunk_chars l w hmem

theorem joinSp_cons (w : List Nat) {ws : List (List Nat)} (h : ws ≠ []) :
    joinSp (w :: ws) = w ++ cp ' ' :: joinSp ws := by
  cases ws with
  | nil => exact absurd rfl h
  | cons w2 ws2 => rfl

theorem joinSp_chars :
    ∀ (ws : List (List Nat)) (c : Nat), c ∈ joinSp ws →
      c = cp ' ' ∨ ∃ w ∈ ws, c ∈ w := by
  intro ws
  induction ws with
  | nil => intro c hc; simp [joinSp] at hc
  | cons w ws ih =>
    intro c hc
    cases ws with
    | nil =>
      right
      exact ⟨w, by simp, by simpa [joinSp] using hc⟩
    | cons w2 ws2 =>
      rw [joinSp_cons w (by simp)] at hc
      rcases List.mem_append.mp hc with hc | hc
      · exact Or.inr ⟨w, by simp, hc⟩
      · rcases List.mem_cons.mp hc with rfl | hc
        · exact Or.inl rfl
        · rcases ih c hc with h | ⟨u, hu, hcu⟩
          · exact Or.inl h
          · exact Or.inr ⟨u, by simp [hu], hcu⟩

theorem splitWs_joinSp :
    ∀ (ws : List (List Nat)),
      (∀ w ∈ ws, w ≠ [] ∧ ∀ c ∈ w, isWsN c = false) →
      splitWs (joinSp ws) = ws := by
  intro ws
  induction ws with
  | nil => intro _; rfl
  | cons w ws ih =>
    intro h
    have hw := h w (by simp)
    cases ws with
    | nil =>
      show splitWs (joinSp [w]) = [w]
      have hjoin : joinSp [w] = w := rfl
      rw [hjoin]
      unfold splitWs
      rw [List.splitOnP_eq_single _ _ (fun x hx => by simp [hw.2 x hx])]
      have hne : (!w.isEmpty) = true := by
        cases w with
        | nil => exact absurd rfl hw.1
        | cons c cs => rfl
      simp [List.filter, hne]
    | cons w2 ws2 =>
      have hrest : ∀ u ∈ w2 :: ws2, u ≠ [] ∧ ∀ c ∈ u, isWsN c = false :=
        fun u hu => h u (by simp [hu])
      rw [joinSp_cons w (by simp)]
      unfold splitWs
      rw [List.splitOnP_first _ w (fun x hx => by simp [hw.2 x hx]) _ (by decide) _]
      have hne : (!w.isEmpty) = true := by
        cases w with
        | nil => exact absurd rfl hw.1
        | cons c cs => rfl
      rw [List.filter_cons, if_pos hne]
      have ihh := ih hrest
      unfold splitWs at ihh
      rw [ihh]

theorem joinSp_splitWs_chars {y : List Nat} :
    ∀ c ∈ joinSp (splitWs y), c = cp ' ' ∨ (c ∈ y ∧ isWsN c = false) := by
  intro c hc
  rcases joinSp_chars (splitWs y) c hc with h | ⟨w, hw, hcw⟩
  · exact Or.inl h
  · exact Or.inr ((splitWs_chunks w hw).2 c hcw)

/-! ## Matcher failure lemmas

When the text contains no character a pattern necessarily consumes, the
matcher fails at every position. -/

theorem classAtLeast_none {p : Nat → Bool} {k : Nat} {l : List Nat}
    (hk : 1 ≤ k) (h : ∀ c ∈ l, p c = false) : classAtLeast p k l = none := by
  unfold classAtLeast
  rw [takeWhile_nil_of h]
  simp only [List.length_nil]
  rw [if_neg (by omega)]

theorem classBetween_none {p : Nat → Bool} {kmin kmax : Nat} {l : List Nat}
    (hk : 1 ≤ kmin) (h : ∀ c ∈ l, p c = false) :
    classBetween p kmin kmax l = none := by
  unfold classBetween
  rw [takeWhile_nil_of h]
  simp only [List.length_nil]
  rw [if_neg (by omega)]

theorem classExact_none {p : Nat → Bool} {k : Nat} {l : List Nat}
    (hk : 1 ≤ k) (h : ∀ c ∈ l, p c = false) : classExact p k l = none := by
  unfold classExact
  rw [takeWhile_nil_of h]
  simp only [List.length_nil]
  rw [if_neg (by omega)]

theorem litN_none {ch : Nat} {l : List Nat} (h : ∀ c ∈ l, c ≠ ch) :
    litN ch l = none := by
  cases l with
  | nil => rfl
  | cons c rest => simp [litN, h c (by simp)]

theorem classAtLeast_sublist {p : Nat → Bool} {k : Nat} {l r : List Nat}
    (h : classAtLeast p k l = some r) : List.Sublist r l := by
  unfold classAtLeast at h
  split_ifs at h
  cases h
  exact List.dropWhile_sublist p

theorem classBetween_sublist {p : Nat → Bool} {kmin kmax : Nat} {l r : List Nat}
    (h : classBetween p kmin kmax l = some r) : List.Sublist r l := by
  unfold classBetween at h
  split_ifs at h
  cases h
  exact List.drop_sublist _ _

theorem litN_sublist {ch : Nat} {l r : List Nat}
    (h : litN ch l = some r) : List.Sublist r l := by
  cases l with
  | nil => cases h
  | cons c rest =>
    simp only [litN] at h
    split_ifs at h
    cases h
    exact List.sublist_cons_self _ _

theorem classExact_sublist {p : Nat → Bool} {k : Nat} {l r : List Nat}
    (h : classExact p k l = some r) : List.Sublist r l := by
  unfold classExact at h
  split_ifs at h
  cases h
  exact List.drop_sublist _ _

theorem litCiN_sublist {ch : Nat} {l r : List Nat}
    (h : litCiN ch l = some r) : List.Sublist r l := by
  cases l with
  | nil => cases h
  | cons c rest =>
    simp only [litCiN] at h
    split_ifs at h
    cases h
    exact List.sublist_cons_self _ _

theorem optLitN_sublist (ch : Nat) (l : List Nat) :
    List.Sublist (optLitN ch l) l := by
  cases l with
  | nil => simp [optLitN]
  | cons c rest =>
    simp only [optLitN]
    split_ifs
    · exact List.sublist_cons_self c rest
    · exact List.Sublist.refl _

theorem optClassCiN_sublist (cs : List Nat) (l : List Nat) :
    List.Sublist (optClassCiN cs l) l := by
  cases l with
  | nil => simp [optClassCiN]
  | cons c rest =>
    simp only [optClassCiN]
    split_ifs
    · exact List.sublist_cons_self c rest
    · exact List.Sublist.refl _

theorem litStrCiN_sublist :
    ∀ {cs l r : List Nat}, litStrCiN cs l = some r → List.Sublist r l := by
  intro cs
  induction cs with
  | nil =>
    intro l r h
    cases h
    exact List.Sublist.refl _
  | cons c cs ih =>
    intro l r h
    unfold litStrCiN at h
    cases h1 : litCiN c l with
    | none => rw [h1] at h; cases h
    | some r1 =>
      rw [h1] at h
      exact (ih h).trans (litCiN_sublist h1)

theorem mFullName_none {pw : Bool} {l : List Nat}
    (h : ∀ c ∈ l, isRuUpperN c = false) : mFullName pw l = none := by
  unfold mFullName
  cases pw with
  | true => rfl
  | false => rw [if_neg (by simp), classExact_none (by omega) h]; rfl

theorem mInitials_none {pw : Bool} {l : List Nat}
    (h : ∀ c ∈ l, isRuUpperN c = false) : mInitials pw l = none := by
  unfold mInitials
  cases pw with
  | true => rfl
  | false => rw [if_neg (by simp), classExact_none (by omega) h]; rfl

theorem mDate1_none {l : List Nat} (h : ∀ c ∈ l, isDigitN c = false) :
    mDate1 l = none := by
  unfold mDate1
  rw [classBetween_none (by omega) h]
  rfl

theorem mDate2_none {l : List Nat} (h : ∀ c ∈ l, isDigitN c = false) :
    mDate2 l = none := by
  unfold mDate2
  rw [classBetween_none (by omega) h]
  rfl

theorem mDate3_none {l : List Nat} (h : ∀ c ∈ l, isDigitN c = false) :
    mDate3 l = none := by
  unfold mDate3
  rw [classBetween_none (by omega) h]
  rfl

theorem mDate4_none {l : List Nat} (h : ∀ c ∈ l, isDigitN c = false) :
    mDate4 l = none := by
  unfold mDate4
  rw [classExact_none (by omega) h]
  rfl

theorem mContract1_none {l : List Nat} (h : ∀ c ∈ l, c ≠ cp '№') :
    mContract1 l = none := by
  unfold mContract1
  rw [classAtLeast_none (by omega) (fun c hc => by simp [h c hc])]
  rfl

theorem mContract2_none {l : List Nat} (h : ∀ c ∈ l, c ≠ cp '№') :
    mContract2 l = none := by
  unfold mContract2
  cases h1 : litStrCiN (codes (r"договор")) l with
  | none => rfl
  | some r1 =>
    simp only [Option.some_bind]
    have hs1 : List.Sublist (optClassCiN [cp 'а', cp 'у', cp 'е'] r1) l :=
      (optClassCiN_sublist _ r1).trans (litStrCiN_sublist h1)
    cases h2 : classAtLeast isWsN 1 (optClassCiN [cp 'а', cp 'у', cp 'е'] r1) with
    | none => rfl
    | some r2 =>
      simp only [Option.some_bind]
      have hs2 : List.Sublist r2 l := (classAtLeast_sublist h2).trans hs1
      rw [classAtLeast_none (k := 1) (by omega)
        (fun c hc => beq_eq_false_iff_ne.mpr (h c (hs2.mem hc)))]
      rfl

theorem mAccount1_none {l : List Nat} (h : ∀ c ∈ l, isDigitN c = false) :
    mAccount1 l = none := by
  unfold mAccount1
  cases h1 : litStrCiN (codes (r"счет")) l with
  | none => rfl
  | some r1 =>
    simp only [Option.some_bind]
    have hs1 : List.Sublist (optClassCiN [cp 'а', cp 'у', cp 'е'] r1) l :=
      (optClassCiN_sublist _ r1).trans (litStrCiN_sublist h1)
    cases h2 : classAtLeast isWsN 1 (optClassCiN [cp 'а', cp 'у', cp 'е'] r1) with
    | none => rfl
    | some r2 =>
      simp only [Option.some_bind]
      have hs2 : List.Sublist r2 l := (classAtLeast_sublist h2).trans hs1
      cases h3 : classAtLeast isWsN 0 (optLitN (cp '№') r2) with
      | none => rfl
      | some r3 =>
        simp only [Option.some_bind]
        have hs3 : List.Sublist r3 l :=
          ((classAtLeast_sublist h3).trans (optLitN_sublist _ r2)).trans hs2
        rw [classAtLeast_none (k := 5) (by omega) (fun c hc => h c (hs3.mem hc))]
        rfl

theorem mAccount2_none {l : List Nat} (h : ∀ c ∈ l, c ≠ cp '№') :
    mAccount2 l = none := by
  unfold mAccount2
  rw [litN_none h]
  rfl

theorem mAccount3_none {pw : Bool} {l : List Nat}
    (h : ∀ c ∈ l, isDigitN c = false) : mAccount3 pw l = none := by
  unfold mAccount3
  cases pw with
  | true => rfl
  | false => rw [if_neg (by simp), classAtLeast_none (by omega) h]

/-! ## Empty scans and redaction fixpoints -/

theorem scanAll_eq_nil {m : Bool → List Nat → Option Nat} {Q : Nat → Prop}
    (hm : ∀ (pw : Bool) (l : List Nat), (∀ c ∈ l, Q c) → m pw l = none) :
    ∀ (fuel : Nat) (pw : Bool) (l : List Nat), (∀ c ∈ l, Q c) →
      scanAll m fuel pw l = [] := by
  intro fuel
  induction fuel with
  | zero => intro pw l _; rfl
  | succ fuel ih =>
    intro pw l hQ
    cases l with
    | nil => rfl
    | cons c rest =>
      show scanAll m (fuel + 1) pw (c :: rest) = []
      unfold scanAll
      rw [hm pw (c :: rest) hQ]
      exact ih (isWordCharN c) rest (fun d hd => hQ d (by simp [hd]))

theorem findall_eq_nil {m : Bool → List Nat → Option Nat} {Q : Nat → Prop}
    (hm : ∀ (pw : Bool) (l : List Nat), (∀ c ∈ l, Q c) → m pw l = none)
    {l : List Nat} (hQ : ∀ c ∈ l, Q c) : findall m l = [] :=
  scanAll_eq_nil hm l.length false l hQ

/-- Character condition under which every entity matcher fails: no uppercase
Cyrillic, no digit, no №. -/
def EntityFree (c : Nat) : Prop :=
  isRuUpperN c = false ∧ isDigitN c = false ∧ c ≠ cp '№'

theorem extract_entities_empty {t : List Nat} (h : ∀ c ∈ t, EntityFree c) :
    extract_entities t = ⟨[], [], [], []⟩ := by
  have hru : ∀ c ∈ t, isRuUpperN c = false := fun c hc => (h c hc).1
  have hdig : ∀ c ∈ t, isDigitN c = false := fun c hc => (h c hc).2.1
  have hnum : ∀ c ∈ t, c ≠ cp '№' := fun c hc => (h c hc).2.2
  have hfull : findall mFullName t = [] :=
    findall_eq_nil (Q := fun c => isRuUpperN c = false)
      (fun pw l hl => mFullName_none hl) hru
  have hinit : findall mInitials t = [] :=
    findall_eq_nil (Q := fun c => isRuUpperN c = false)
      (fun pw l hl => mInitials_none hl) hru
  have hd1 : findall (noB mDate1) t = [] :=
    findall_eq_nil (Q := fun c => isDigitN c = false)
      (fun pw l hl => mDate1_none hl) hdig
  have hd2 : findall (noB mDate2) t = [] :=
    findall_eq_nil (Q := fun c => isDigitN c = false)
      (fun pw l hl => mDate2_none hl) hdig
  have hd3 : findall (noB mDate3) t = [] :=
    findall_eq_nil (Q := fun c => isDigitN c = false)
      (fun pw l hl => mDate3_none hl) hdig
  have hd4 : findall (noB mDate4) t = [] :=
    findall_eq_nil (Q := fun c => isDigitN c = false)
      (fun pw l hl => mDate4_none hl) hdig
  have hc1 : findall (noB mContract1) t = [] :=
    findall_eq_nil (Q := fun c => c ≠ cp '№')
      (fun pw l hl => mContract1_none hl) hnum
  have hc2 : findall (noB mContract2) t = [] :=
    findall_eq_nil (Q := fun c => c ≠ cp '№')
      (fun pw l hl => mContract2_none hl) hnum
  have ha1 : findall (noB mAccount1) t = [] :=
    findall_eq_nil (Q := fun c => isDigitN c = false)
      (fun pw l hl => mAccount1_none hl) hdig
  have ha2 : findall (noB mAccount2) t = [] :=
    findall_eq_nil (Q := fun c => c ≠ cp '№')
      (fun pw l hl => mAccount2_none hl) hnum
  have ha3 : findall mAccount3 t = [] :=
    findall_eq_nil (Q := fun c => isDigitN c = false)
      (fun pw l hl => mAccount3_none hl) hdig
  unfold extract_entities namesOf datesOf dateCandidates contractsOf accountsOf
  rw [hfull, hinit, hd1, hd2, hd3, hd4, hc1, hc2, ha1, ha2, ha3]
  rfl

theorem remove_personal_data_fixed {t : List Nat} (h : ∀ c ∈ t, EntityFree c) :
    remove_personal_data t = t := by
  unfold remove_personal_data
  rw [extract_entities_empty h]
  rfl

/-! ## Shape of the normalized output and the idempotence theorem -/

/-- Characters of normalized tokens: word characters that are not digits, not
whitespace, and fixed by lowercasing. -/
def GoodChar (c : Nat) : Prop :=
  isWordCharN c = true ∧ isDigitN c = false ∧ isWsN c = false ∧ toLowerN c = c

theorem remove_punctuation_chars {x : List Nat} :
    ∀ c ∈ remove_punctuation x, c = cp ' ' ∨ (isWordCharN c = true ∧ isWsN c = false) := by
  intro c hc
  unfold remove_punctuation at hc
  rcases joinSp_splitWs_chars c hc with h | ⟨hmem, hws⟩
  · exact Or.inl h
  · right
    refine ⟨?_, hws⟩
    rcases List.mem_map.mp hmem with ⟨d, hd, hdc⟩
    by_cases hcase : (isWordCharN d || isWsN d) = true
    · rw [if_pos hcase] at hdc
      subst hdc
      have hcase' : isWordCharN d = true ∨ isWsN d = true := by simpa using hcase
      rcases hcase' with hword | hwsd
      · exact hword
      · rw [hwsd] at hws
        cases hws
    · rw [if_neg hcase] at hdc
      subst hdc
      exact absurd hws (by decide)

theorem remove_numbers_chars {x : List Nat} :
    ∀ c ∈ remove_numbers x,
      c = cp ' ' ∨ (c ∈ x ∧ isDigitN c = false ∧ isWsN c = false) := by
  intro c hc
  unfold remove_numbers at hc
  rcases joinSp_splitWs_chars c hc with h | ⟨hmem, hws⟩
  · exact Or.inl h
  · right
    have h2 := List.mem_filter.mp hmem
    exact ⟨h2.1, by simpa using h2.2, hws⟩

/-- The token list produced by the default normalization pipeline with the
lemmatization capability absent. -/
def pipeTokens (t : List Nat) : List (List Nat) :=
  remove_stop_words
    (tokenize (remove_numbers (remove_punctuation ((remove_personal_data t).map toLowerN))))
    none

theorem pipeTokens_good (t : List Nat) :
    ∀ w ∈ pipeTokens t,
      (w ≠ [] ∧ ∀ c ∈ w, GoodChar c) ∧ RUSSIAN_STOP_WORDS.contains w = false := by
  intro w hw
  unfold pipeTokens remove_stop_words at hw
  have hst : RUSSIAN_STOP_WORDS.contains w = false := by
    have := (List.mem_filter.mp hw).2
    simpa using this
  have hwtok := (List.mem_filter.mp hw).1
  unfold tokenize at hwtok
  have hchunk := splitWs_chunks w hwtok
  refine ⟨⟨hchunk.1, ?_⟩, hst⟩
  intro c hc
  obtain ⟨hcmem, hcws⟩ := hchunk.2 c hc
  rcases List.mem_map.mp hcmem with ⟨d, hd, hdc⟩
  subst hdc
  rcases remove_numbers_chars d hd with rfl | ⟨hd3, hddig, hdws⟩
  · exact absurd hcws (by decide)
  · rcases remove_punctuation_chars d hd3 with rfl | ⟨hdword, -⟩
    · exact absurd hdws (by decide)
    · exact ⟨toLowerN_word hdword, toLowerN_not_digit hddig, hcws, toLowerN_idem d⟩

theorem normalize_fixed (lem : List Nat → List Nat) (ws : List (List Nat))
    (hGood : ∀ w ∈ ws, w ≠ [] ∧ ∀ c ∈ w, GoodChar c)
    (hStop : ∀ w ∈ ws, RUSSIAN_STOP_WORDS.contains w = false) :
    normalizeText false lem (joinSp ws) = joinSp ws := by
  have hNchars : ∀ c ∈ joinSp ws, c = cp ' ' ∨ GoodChar c := by
    intro c hc
    rcases joinSp_chars ws c hc with h | ⟨w, hw, hcw⟩
    · exact Or.inl h
    · exact Or.inr ((hGood w hw).2 c hcw)
  have hEF : ∀ c ∈ joinSp ws, EntityFree c := by
    intro c hc
    rcases hNchars c hc with rfl | hg
    · exact ⟨by decide, by decide, by decide⟩
    · exact ⟨not_ruUpper_of_lower_fixed hg.2.2.2, hg.2.1, word_ne_numero hg.1⟩
  have h1 : remove_personal_data (joinSp ws) = joinSp ws := remove_personal_data_fixed hEF
  have h2 : (joinSp ws).map toLowerN = joinSp ws := by
    apply mapIdOn
    intro c hc
    rcases hNchars c hc with rfl | hg
    · decide
    · exact hg.2.2.2
  have hchunks : ∀ w ∈ ws, w ≠ [] ∧ ∀ c ∈ w, isWsN c = false :=
    fun w hw => ⟨(hGood w hw).1, fun c hc => ((hGood w hw).2 c hc).2.2.1⟩
  have hsplit : splitWs (joinSp ws) = ws := splitWs_joinSp ws hchunks
  have h3 : remove_punctuation (joinSp ws) = joinSp ws := by
    unfold remove_punctuation
    have hmap : (joinSp ws).map
        (fun c => if isWordCharN c || isWsN c then c else cp ' ') = joinSp ws := by
      apply mapIdOn
      intro c hc
      rcases hNchars c hc with rfl | hg
      · decide
      · rw [if_pos (by simp [hg.1])]
    rw [hmap, hsplit]
  have h4 : remove_numbers (joinSp ws) = joinSp ws := by
    unfold remove_numbers
    have hf : (joinSp ws).filter (fun c => !isDigitN c) = joinSp ws := by
      rw [List.filter_eq_self]
      intro c hc
      rcases hNchars c hc with rfl | hg
      · decide
      · simp [hg.2.1]
    rw [hf, hsplit]
  have h5 : tokenize (joinSp ws) = ws := by
    unfold tokenize
    rw [h2, hsplit]
  have h6 : remove_stop_words ws none = ws := by
    unfold remove_stop_words
    rw [List.filter_eq_self]
    intro w hw
    simp only [Option.getD_none, Bool.not_eq_true']
    exact hStop w hw
  have hdef : normalizeText false lem (joinSp ws) =
      joinSp (remove_stop_words
        (tokenize (remove_numbers (remove_punctuation
          ((remove_personal_data (joinSp ws)).map toLowerN)))) none) := rfl
  rw [hdef, h1, h2, h3, h4, h5, h6]

/-- Claim C6.  The normalization pipeline with its default flags is
idempotent: applying enhanced_preprocess_text to its own output returns that
output unchanged, for every input text.  The lemmatization capability is
modelled as absent (pymorphy3 missing, preprocessing.py lines 6-11 and
46-49), in which case tokens pass through the lemmatization step unchanged;
lem is the per-token normal form the external analyzer would provide. -/
theorem enhanced_preprocess_idempotent :
    ∀ (lem : List Nat → List Nat) (t : List Nat),
      normalizeText false lem (normalizeText false lem t) =
        normalizeText false lem t := by
  intro lem t
  have hshape := pipeTokens_good t
  have hfix := normalize_fixed lem (pipeTokens t)
    (fun w hw => (hshape w hw).1) (fun w hw => (hshape w hw).2)
  exact hfix
